import Mathlib

/-!
# Verification of the XcelWorks repository

Shallow embedding of the two scripts:
* `2.ExcelDataHandling/main.py` — sample generation and the `manipulate`
  transformation pipeline over pandas DataFrames;
* `1.ExcelToHTML/main.py` — the spreadsheet-to-HTML exporter.

DataFrames are modelled as tables of rows of scalar cells; pandas numbers are
modelled as exact rationals (`ℚ`); missing values (`NaN`/`NaT`) are the `na`
cell.  Each pandas library call used by the source is modelled by an
executable Lean function whose doc comment names the call it embeds.
-/

/-- A scalar cell of a DataFrame: a number, a text string, a datetime
(year, month, day), or a missing value (pandas `NaN`). -/
inductive Cell where
  | num (q : ℚ)
  | str (s : String)
  | dt (y m d : Nat)
  | na
deriving DecidableEq, Repr, Inhabited

/-- One row of a table.  The four `Cell` fields model the cells of the
`Date`, `Category`, `Amount` and `Notes` columns; `yearMonth` and `vat`
model the cells of the derived `YearMonth` (string-valued) and `VAT_20`
(numeric) columns.  A field is meaningful only when the corresponding
column-presence flag of the enclosing `Table` is set. -/
structure Row where
  date : Cell
  category : Cell
  amount : Cell
  notes : Cell
  yearMonth : String
  vat : ℚ
deriving DecidableEq, Repr, Inhabited

/-- A DataFrame: column-presence flags (which of the named columns exist in
the frame) together with the list of rows. -/
structure Table where
  hasDate : Bool
  hasCategory : Bool
  hasAmount : Bool
  hasNotes : Bool
  hasYearMonth : Bool
  hasVat : Bool
  rows : List Row
deriving DecidableEq, Repr, Inhabited

/-- Numeric value of the list of decimal digit characters. -/
def digitsToNat (l : List Char) : Nat :=
  l.foldl (fun a c => a * 10 + (c.toNat - 48)) 0

/-- Models `pd.to_numeric` applied to a single string: an optional sign,
then digits with an optional fractional part; anything else fails to parse. -/
def parseDecimal (s : String) : Option ℚ :=
  let signed : ℚ × List Char :=
    match s.data with
    | '-' :: r => (-1, r)
    | '+' :: r => (1, r)
    | r => (1, r)
  match signed.2.span Char.isDigit with
  | (ds, []) =>
      if ds.isEmpty then none else some (signed.1 * digitsToNat ds)
  | (ds, '.' :: fs) =>
      if fs.all Char.isDigit && !(ds.isEmpty && fs.isEmpty) then
        some (signed.1 * ((digitsToNat ds : ℚ) + (digitsToNat fs : ℚ) / (10 ^ fs.length)))
      else none
  | _ => none

/-- Models `pd.to_numeric(col, errors="coerce")` on one cell: numbers pass
through, parseable strings become their number, everything else becomes
`NaN` (here `na`). -/
def toNumericCell (c : Cell) : Cell :=
  match c with
  | .num q => .num q
  | .str s => match parseDecimal s with
      | some q => .num q
      | none => .na
  | .dt _ _ _ => .na
  | .na => .na

/-- Models `.fillna(0.0)` on one cell of a numeric column. -/
def fillnaZero (c : Cell) : Cell :=
  match c with
  | .na => .num 0
  | c => c

/-- One application of the Amount-coercion step of `manipulate`:
`pd.to_numeric(df["Amount"], errors="coerce").fillna(0.0)` on one cell. -/
def coerceCell (c : Cell) : Cell :=
  fillnaZero (toNumericCell c)

/-- Numeric reading of a cell: the number it holds, and `0` otherwise
(used after coercion, when every Amount cell holds a number). -/
def getQ (c : Cell) : ℚ :=
  match c with
  | .num q => q
  | _ => 0

/-- `True` when every cell of the row, in every column the table actually
has, is missing.  The string-valued `YearMonth` column and the numeric
`VAT_20` column can never hold a missing value in this model. -/
def rowAllNa (t : Table) (r : Row) : Bool :=
  (!t.hasDate || r.date == Cell.na) &&
  (!t.hasCategory || r.category == Cell.na) &&
  (!t.hasAmount || r.amount == Cell.na) &&
  (!t.hasNotes || r.notes == Cell.na) &&
  !t.hasYearMonth && !t.hasVat

/-- Models `df.dropna(how="all")`: drop the rows whose every cell is
missing. -/
def dropnaAll (t : Table) : Table :=
  { t with rows := t.rows.filter (fun r => !rowAllNa t r) }

/-- Models `df["Amount"] = 1.0` when the column is absent: a constant
numeric column is created. -/
def synthAmount (t : Table) : Table :=
  { t with hasAmount := true, rows := t.rows.map (fun r => { r with amount := .num 1 }) }

/-- Models `df["Amount"] = pd.to_numeric(df["Amount"], errors="coerce").fillna(0.0)`. -/
def coerceAmounts (t : Table) : Table :=
  { t with rows := t.rows.map (fun r => { r with amount := coerceCell r.amount }) }

/-- Models `pd.to_datetime(cell, errors="coerce")`: datetimes pass through,
everything else becomes `NaT` (here `na`). -/
def normDateCell (c : Cell) : Cell :=
  match c with
  | .dt y m d => .dt y m d
  | _ => .na

/-- Two-digit rendering of a month number, as in a pandas month period. -/
def pad2 (n : Nat) : String :=
  if n < 10 then "0" ++ toString n else toString n

/-- Models `cell.dt.to_period("M").astype(str)`: `"YYYY-MM"` for a
datetime, `"NaT"` for a missing date. -/
def ymOfDateCell (c : Cell) : String :=
  match c with
  | .dt y m _ => toString y ++ "-" ++ pad2 m
  | _ => "NaT"

/-- Models the `Date`-branch of `manipulate`:
`df["Date"] = pd.to_datetime(df["Date"], errors="coerce")` followed by
`df["YearMonth"] = df["Date"].dt.to_period("M").astype(str)`. -/
def addYearMonth (t : Table) : Table :=
  { t with hasYearMonth := true,
           rows := t.rows.map (fun r =>
             { r with date := normDateCell r.date, yearMonth := ymOfDateCell r.date }) }

/-- Rounding to two decimal places, modelling `.round(2)` of the source. -/
def round2 (q : ℚ) : ℚ :=
  (round (q * 100) : ℤ) / 100

/-- Models `df["VAT_20"] = (df["Amount"] * 0.20).round(2)`. -/
def addVat (t : Table) : Table :=
  { t with hasVat := true,
           rows := t.rows.map (fun r => { r with vat := round2 (getQ r.amount * 0.20) }) }

/-- Models `df_pos = df[df["Amount"] > 0].copy()`. -/
def filterPos (t : Table) : Table :=
  { t with rows := t.rows.filter (fun r => 0 < getQ r.amount) }

/-- Models `df["Category"] = "All"` when the column is absent. -/
def synthCat (t : Table) : Table :=
  { t with hasCategory := true,
           rows := t.rows.map (fun r => { r with category := .str "All" }) }

/-! ## Grouping, sorting and pivoting

pandas sorts grouping keys and pivot axes; on the homogeneous key columns
the scripts produce, that order is: numbers by value, strings
lexicographically.  We realise it by encoding every cell into a
lexicographic product carrying a constructor tag, the string payload and
the numeric payload. -/

/-- Code-point encoding of a string, ordered lexicographically exactly as
the string itself. -/
def strCode (s : String) : List ℕ := s.data.map Char.toNat

/-- Order-encoding of a cell, giving the key order pandas uses on the
homogeneous key columns of this pipeline (strings lexicographically,
numbers by value, missing values last as in `sort_values`). -/
def cellCode (c : Cell) : Nat ×ₗ (List ℕ ×ₗ ℚ) :=
  match c with
  | .num q => toLex (0, toLex ([], q))
  | .str s => toLex (1, toLex (strCode s, 0))
  | .dt y m d => toLex (2, toLex ([], ((y * 10000 + m * 100 + d : Nat) : ℚ)))
  | .na => toLex (3, toLex ([], 0))

/-- Encoding of the optional `YearMonth` key (absent compares least). -/
def ymCode (o : Option String) : List ℕ :=
  match o with
  | none => []
  | some s => strCode s

/-- A grouping key of the `totals` computation: the `Category` cell and,
when grouping also goes by month, the `YearMonth` string. -/
abbrev TKey := Cell × Option String

/-- Order-encoding of a grouping key: category first, then year-month. -/
def keyCode (k : TKey) : (Nat ×ₗ (List ℕ ×ₗ ℚ)) ×ₗ List ℕ :=
  toLex (cellCode k.1, ymCode k.2)

/-- `sort_values(["Category", "YearMonth"])` order on grouping keys. -/
def keyLe (a b : TKey) : Prop := keyCode a ≤ keyCode b

instance : DecidableRel keyLe := fun a b => inferInstanceAs (Decidable (keyCode a ≤ keyCode b))

instance : IsTotal TKey keyLe := ⟨fun a b => le_total (keyCode a) (keyCode b)⟩

instance : IsTrans TKey keyLe := ⟨fun _ _ _ h h' => le_trans h h'⟩

/-- `sort_values`/`sort_index` order on category cells alone. -/
def cellLe (a b : Cell) : Prop := cellCode a ≤ cellCode b

instance : DecidableRel cellLe := fun a b => inferInstanceAs (Decidable (cellCode a ≤ cellCode b))

instance : IsTotal Cell cellLe := ⟨fun a b => le_total (cellCode a) (cellCode b)⟩

instance : IsTrans Cell cellLe := ⟨fun _ _ _ h h' => le_trans h h'⟩

/-- Lexicographic string order used on `YearMonth` pivot columns. -/
def strLe (a b : String) : Prop := strCode a ≤ strCode b

instance : DecidableRel strLe := fun a b => inferInstanceAs (Decidable (strCode a ≤ strCode b))

instance : IsTotal String strLe := ⟨fun a b => le_total (strCode a) (strCode b)⟩

instance : IsTrans String strLe := ⟨fun _ _ _ h h' => le_trans h h'⟩

/-- One row of the `totals` result: the `Category` key, the `YearMonth`
key when grouping went by month (`none` otherwise), and the summed
`Amount`. -/
structure TotalsRow where
  category : Cell
  yearMonth : Option String
  amount : ℚ
deriving DecidableEq, Repr

/-- The grouping key of one positive-row, as used by `groupby`. -/
def rowKey (useYM : Bool) (r : Row) : TKey :=
  (r.category, if useYM then some r.yearMonth else none)

/-- Sum of the (coerced) amounts of the rows of a list. -/
def sumAmounts (rs : List Row) : ℚ :=
  (rs.map (fun r => getQ r.amount)).sum

/-- Models
`df_pos.groupby(["Category", "YearMonth"], as_index=False)["Amount"].sum().sort_values(["Category", "YearMonth"])`
(and the month-free variant when `useYM` is false): one output row per
distinct non-missing grouping key — `groupby` drops `NaN` keys — holding
the sum of `Amount` over the rows with that key, sorted by category then
year-month. -/
def totalsFor (useYM : Bool) (rs : List Row) : List TotalsRow :=
  let keys := ((rs.filter (fun r => !(r.category == Cell.na))).map (rowKey useYM)).dedup
  (keys.insertionSort keyLe).map (fun k =>
    ⟨k.1, k.2, sumAmounts (rs.filter (fun r => rowKey useYM r == k))⟩)

/-- The pivot result: one row per category, each row holding the
`(YearMonth, summed Amount)` cells in the (sorted) column order. -/
structure Pivot where
  rows : List (Cell × List (String × ℚ))
deriving DecidableEq, Repr

/-- The distinct categories appearing in rows whose category is not
missing — `groupby`/`pivot_table` drop `NaN` keys. -/
def presentCats (rs : List Row) : List Cell :=
  ((rs.filter (fun r => !(r.category == Cell.na))).map (fun r => r.category)).dedup

/-- The distinct year-months appearing in rows whose category is not
missing: a year-month occurring only in rows with a missing category
forms no `pivot_table` group and hence no column. -/
def presentYMs (rs : List Row) : List String :=
  ((rs.filter (fun r => !(r.category == Cell.na))).map (fun r => r.yearMonth)).dedup

/-- Models
`df_pos.pivot_table(index="Category", columns="YearMonth", values="Amount", aggfunc="sum", fill_value=0).sort_index()`:
rows are the distinct non-missing categories sorted, columns the distinct
year-months of the grouped rows sorted, each cell the sum of `Amount` over
the rows with that category and year-month (`fill_value=0` when none). -/
def pivotFor (rs : List Row) : Pivot :=
  let cats := (presentCats rs).insertionSort cellLe
  let yms := (presentYMs rs).insertionSort strLe
  ⟨cats.map (fun c =>
    (c, yms.map (fun m =>
      (m, sumAmounts (rs.filter (fun r => r.category == c && r.yearMonth == m))))))⟩

/-- Pivot cell lookup: the value at row-category `c` and column `m`, when
both exist. -/
def Pivot.cell? (p : Pivot) (c : Cell) (m : String) : Option ℚ :=
  (p.rows.find? (fun ro => ro.1 == c)).bind (fun ro =>
    (ro.2.find? (fun e => e.1 == m)).map (fun e => e.2))

/-- The four results of `manipulate`:
`(df_clean, df_pos, totals, pivot_or_None)`. -/
structure ManipResult where
  clean : Table
  pos : Table
  totals : List TotalsRow
  pivot : Option Pivot
deriving DecidableEq, Repr

/-- The `manipulate` pipeline of `2.ExcelDataHandling/main.py`, statement
by statement: drop all-missing rows, synthesize `Amount` if absent, coerce
it to numbers, derive `YearMonth` if `Date` is present, add `VAT_20`,
filter the positive rows, synthesize `Category` if absent (on both
frames), then group totals and, when a `YearMonth` column exists, pivot. -/
def manipulate (t : Table) : ManipResult :=
  let t1 := dropnaAll t
  let t2 := if t1.hasAmount then t1 else synthAmount t1
  let t3 := coerceAmounts t2
  let t4 := if t3.hasDate then addYearMonth t3 else t3
  let t5 := addVat t4
  let pos0 := filterPos t5
  let t6 := if t5.hasCategory then t5 else synthCat t5
  let pos1 := if t5.hasCategory then pos0 else synthCat pos0
  if t6.hasYearMonth then
    ⟨t6, pos1, totalsFor true pos1.rows, some (pivotFor pos1.rows)⟩
  else
    ⟨t6, pos1, totalsFor false pos1.rows, none⟩

/-! ## Python object-identity model

Claim C8 is about mutation: `manipulate` must not change the DataFrame
object the caller passed in.  We model DataFrame objects on a heap
(addresses are list indices); a pandas call returning a new frame is an
allocation, a column assignment `df[c] = …` is a write at the address the
local name `df` is bound to. -/

/-- The heap of live DataFrame objects. -/
abbrev Heap := List Table

/-- Allocate a new frame (at address `h.length`). -/
def Heap.push (h : Heap) (t : Table) : Heap := h ++ [t]

/-- Read the frame at an address. -/
def Heap.read (h : Heap) (a : Nat) : Table := h.getD a default

/-- Overwrite the frame at an address (in-place column assignment). -/
def Heap.write (h : Heap) (a : Nat) (t : Table) : Heap := h.set a t

/-- `manipulate`, at the level of Python object identity: the argument is
the address of the caller's frame.  `df = df.dropna(how="all").copy()`
allocates the `dropna` result and its copy and rebinds the local name to
the copy; every subsequent `df[...] = …` / `df_pos[...] = …` writes in
place at the address of that copy, never at the caller's address.
Returns the final heap, the addresses of `df_clean` and `df_pos`, and the
`totals` and `pivot` values. -/
def manipulateH (h0 : Heap) (a : Nat) : Heap × Nat × Nat × List TotalsRow × Option Pivot :=
  let aT := h0.length
  let h1 := h0.push (dropnaAll (h0.read a))
  let aDf := h1.length
  let h2 := h1.push (h1.read aT)
  let h3 := if (h2.read aDf).hasAmount then h2 else h2.write aDf (synthAmount (h2.read aDf))
  let h4 := h3.write aDf (coerceAmounts (h3.read aDf))
  let h5 := if (h4.read aDf).hasDate then h4.write aDf (addYearMonth (h4.read aDf)) else h4
  let h6 := h5.write aDf (addVat (h5.read aDf))
  let aPos := h6.length
  let h7 := h6.push (filterPos (h6.read aDf))
  let h8 :=
    if (h7.read aDf).hasCategory then h7
    else
      let h7a := h7.write aDf (synthCat (h7.read aDf))
      h7a.write aPos (synthCat (h7a.read aPos))
  if (h8.read aDf).hasYearMonth then
    (h8, aDf, aPos, totalsFor true (h8.read aPos).rows, some (pivotFor (h8.read aPos).rows))
  else
    (h8, aDf, aPos, totalsFor false (h8.read aPos).rows, none)

/-- The six-row sample frame written by `create_sample_excel` and read
back by `load_excel_first_sheet`: `Date`, `Category`, `Amount`, `Notes`
columns, no derived columns. -/
def sampleTable : Table :=
  { hasDate := true, hasCategory := true, hasAmount := true, hasNotes := true,
    hasYearMonth := false, hasVat := false,
    rows := [
      ⟨.dt 2025 1 5, .str "Food", .num 50, .str "Groceries", "", 0⟩,
      ⟨.dt 2025 1 10, .str "Transport", .num 20, .str "Bus fare", "", 0⟩,
      ⟨.dt 2025 2 3, .str "Food", .num 30, .str "Lunch", "", 0⟩,
      ⟨.dt 2025 2 15, .str "Rent", .num 500, .str "Monthly rent", "", 0⟩,
      ⟨.dt 2025 3 7, .str "Transport", .num 25, .str "Taxi", "", 0⟩,
      ⟨.dt 2025 3 20, .str "Food", .num 45, .str "Dinner", "", 0⟩ ] }

/-! ## Helper lemmas about the pipeline -/

/-- The match predicate of one `totals` entry: same category and — when
grouping went by month — same year-month. -/
def matchesEntry (u : Bool) (e : TotalsRow) (r : Row) : Bool :=
  r.category == e.category && (!u || some r.yearMonth == e.yearMonth)

/-- Order of `totals` rows: by category, then year-month. -/
def entryLe (a b : TotalsRow) : Prop :=
  keyLe (a.category, a.yearMonth) (b.category, b.yearMonth)

lemma totalsFor_mem_amount (u : Bool) (rs : List Row) (e : TotalsRow)
    (he : e ∈ totalsFor u rs) :
    e.amount = sumAmounts (rs.filter (matchesEntry u e)) := by
  simp only [totalsFor] at he
  rw [List.mem_map] at he
  obtain ⟨k, hk, rfl⟩ := he
  have hk' : k ∈ ((rs.filter fun r => !(r.category == Cell.na)).map (rowKey u)).dedup :=
    (List.perm_insertionSort keyLe _).mem_iff.mp hk
  rw [List.mem_dedup, List.mem_map] at hk'
  obtain ⟨r₀, _, hk0⟩ := hk'
  show sumAmounts _ = sumAmounts _
  congr 1
  apply List.filter_congr
  intro r _
  subst hk0
  cases u <;> rfl

lemma totalsFor_sorted (u : Bool) (rs : List Row) :
    (totalsFor u rs).Pairwise entryLe := by
  simp only [totalsFor]
  refine List.Pairwise.map _ ?_ (List.sorted_insertionSort keyLe _)
  intro a b hab
  exact hab

lemma totalsFor_mem_ym (u : Bool) (rs : List Row) (e : TotalsRow)
    (he : e ∈ totalsFor u rs) :
    e.yearMonth = if u then e.yearMonth else none := by
  simp only [totalsFor] at he
  rw [List.mem_map] at he
  obtain ⟨k, hk, rfl⟩ := he
  have hk' : k ∈ ((rs.filter fun r => !(r.category == Cell.na)).map (rowKey u)).dedup :=
    (List.perm_insertionSort keyLe _).mem_iff.mp hk
  rw [List.mem_dedup, List.mem_map] at hk'
  obtain ⟨r₀, _, hk0⟩ := hk'
  subst hk0
  cases u <;> simp [rowKey]

lemma find?_map_eq_some {α β : Type _} [BEq α] [LawfulBEq α]
    (L : List α) (g : α → β) (c : α) (hnd : L.Nodup) (hc : c ∈ L) :
    (L.map (fun x => (x, g x))).find? (fun p => p.1 == c) = some (c, g c) := by
  induction L with
  | nil => cases hc
  | cons a L ih =>
    rcases List.mem_cons.mp hc with rfl | hc'
    · rw [List.map_cons, List.find?_cons_of_pos]
      simp
    · have hanin := (List.nodup_cons.mp hnd).1
      have hane : a ≠ c := by rintro rfl; exact hanin hc'
      rw [List.map_cons, List.find?_cons_of_neg, ih (List.nodup_cons.mp hnd).2 hc']
      simp [hane]

lemma pivotFor_cell (rs : List Row) (c : Cell) (m : String)
    (hc : c ∈ presentCats rs) (hm : m ∈ presentYMs rs) :
    (pivotFor rs).cell? c m =
      some (sumAmounts (rs.filter (fun r => r.category == c && r.yearMonth == m))) := by
  have hcnd : ((presentCats rs).insertionSort cellLe).Nodup :=
    ((List.perm_insertionSort cellLe _).nodup_iff).mpr (List.nodup_dedup _)
  have hynd : ((presentYMs rs).insertionSort strLe).Nodup :=
    ((List.perm_insertionSort strLe _).nodup_iff).mpr (List.nodup_dedup _)
  have hc' : c ∈ (presentCats rs).insertionSort cellLe :=
    (List.perm_insertionSort cellLe _).mem_iff.mpr hc
  have hm' : m ∈ (presentYMs rs).insertionSort strLe :=
    (List.perm_insertionSort strLe _).mem_iff.mpr hm
  simp only [pivotFor, Pivot.cell?]
  rw [find?_map_eq_some _ _ _ hcnd hc']
  dsimp only [Option.bind]
  rw [find?_map_eq_some _ _ _ hynd hm']
  simp

lemma pivotFor_sorted (rs : List Row) :
    (pivotFor rs).rows.Pairwise (fun a b => cellLe a.1 b.1) := by
  simp only [pivotFor]
  refine List.Pairwise.map _ ?_ (List.sorted_insertionSort cellLe _)
  intro a b hab
  exact hab

@[simp] lemma dropnaAll_hasDate (t : Table) : (dropnaAll t).hasDate = t.hasDate := rfl

@[simp] lemma dropnaAll_hasCategory (t : Table) : (dropnaAll t).hasCategory = t.hasCategory := rfl

@[simp] lemma dropnaAll_hasAmount (t : Table) : (dropnaAll t).hasAmount = t.hasAmount := rfl

@[simp] lemma dropnaAll_hasYearMonth (t : Table) : (dropnaAll t).hasYearMonth = t.hasYearMonth := rfl

@[simp] lemma synthAmount_hasDate (t : Table) : (synthAmount t).hasDate = t.hasDate := rfl

@[simp] lemma synthAmount_hasCategory (t : Table) : (synthAmount t).hasCategory = t.hasCategory := rfl

@[simp] lemma synthAmount_hasAmount (t : Table) : (synthAmount t).hasAmount = true := rfl

@[simp] lemma synthAmount_hasYearMonth (t : Table) : (synthAmount t).hasYearMonth = t.hasYearMonth := rfl

@[simp] lemma coerceAmounts_hasDate (t : Table) : (coerceAmounts t).hasDate = t.hasDate := rfl

@[simp] lemma coerceAmounts_hasCategory (t : Table) : (coerceAmounts t).hasCategory = t.hasCategory := rfl

@[simp] lemma coerceAmounts_hasYearMonth (t : Table) : (coerceAmounts t).hasYearMonth = t.hasYearMonth := rfl

@[simp] lemma addYearMonth_hasDate (t : Table) : (addYearMonth t).hasDate = t.hasDate := rfl

@[simp] lemma addYearMonth_hasCategory (t : Table) : (addYearMonth t).hasCategory = t.hasCategory := rfl

@[simp] lemma addYearMonth_hasYearMonth (t : Table) : (addYearMonth t).hasYearMonth = true := rfl

@[simp] lemma addVat_hasDate (t : Table) : (addVat t).hasDate = t.hasDate := rfl

@[simp] lemma addVat_hasCategory (t : Table) : (addVat t).hasCategory = t.hasCategory := rfl

@[simp] lemma addVat_hasYearMonth (t : Table) : (addVat t).hasYearMonth = t.hasYearMonth := rfl

@[simp] lemma filterPos_hasCategory (t : Table) : (filterPos t).hasCategory = t.hasCategory := rfl

@[simp] lemma filterPos_hasYearMonth (t : Table) : (filterPos t).hasYearMonth = t.hasYearMonth := rfl

@[simp] lemma synthCat_hasYearMonth (t : Table) : (synthCat t).hasYearMonth = t.hasYearMonth := rfl

lemma manipulate_clean_hasYM (t : Table) :
    (manipulate t).clean.hasYearMonth = (t.hasDate || t.hasYearMonth) := by
  simp only [manipulate]
  split <;> split <;> split <;> (try split) <;> simp_all

lemma manipulate_totals_def (t : Table) :
    (manipulate t).totals =
      totalsFor (t.hasDate || t.hasYearMonth) (manipulate t).pos.rows := by
  simp only [manipulate]
  split <;> split <;> split <;> (try split) <;> simp_all

lemma manipulate_pivot_def (t : Table) :
    (manipulate t).pivot =
      if (t.hasDate || t.hasYearMonth) = true then some (pivotFor (manipulate t).pos.rows)
      else none := by
  simp only [manipulate]
  split <;> split <;> split <;> (try split) <;> simp_all

lemma addVat_rows_vat (t : Table) :
    ∀ r ∈ (addVat t).rows, r.vat = round2 (getQ r.amount * 0.20) := by
  intro r hr
  simp only [addVat, List.mem_map] at hr
  obtain ⟨r₀, _, rfl⟩ := hr
  rfl

lemma synthCat_rows (t : Table) :
    ∀ r ∈ (synthCat t).rows, ∃ r₀ ∈ t.rows, r = { r₀ with category := Cell.str "All" } := by
  intro r hr
  simp only [synthCat, List.mem_map] at hr
  obtain ⟨r₀, hr₀, rfl⟩ := hr
  exact ⟨r₀, hr₀, rfl⟩

lemma chain_amount_ym (u : Table) :
    ∀ r ∈ (addVat (addYearMonth (coerceAmounts (synthAmount u)))).rows,
      r.amount = Cell.num 1 := by
  intro r hr
  simp only [addVat, addYearMonth, coerceAmounts, synthAmount, List.map_map,
    List.mem_map, Function.comp] at hr
  obtain ⟨r₀, _, rfl⟩ := hr
  rfl

lemma chain_amount_noym (u : Table) :
    ∀ r ∈ (addVat (coerceAmounts (synthAmount u))).rows, r.amount = Cell.num 1 := by
  intro r hr
  simp only [addVat, coerceAmounts, synthAmount, List.map_map, List.mem_map,
    Function.comp] at hr
  obtain ⟨r₀, _, rfl⟩ := hr
  rfl

lemma filter_pos_of_one {rs : List Row} (hrs : ∀ r ∈ rs, r.amount = Cell.num 1) :
    rs.filter (fun r => 0 < getQ r.amount) = rs := by
  apply List.filter_eq_self.mpr
  intro r hr
  rw [hrs r hr]
  rfl

lemma manipulate_noAmount (t : Table) (h : t.hasAmount = false) :
    (∀ r ∈ (manipulate t).clean.rows, r.amount = Cell.num 1) ∧
    (manipulate t).pos.rows = (manipulate t).clean.rows := by
  simp only [manipulate, dropnaAll_hasAmount, h, Bool.false_eq_true, if_false]
  split <;> (try split) <;> (try split) <;> constructor <;>
    first
      | exact chain_amount_ym _
      | exact chain_amount_noym _
      | (intro r hr
         obtain ⟨r₀, hr₀, rfl⟩ := synthCat_rows _ r hr
         simpa using chain_amount_ym _ r₀ hr₀)
      | (intro r hr
         obtain ⟨r₀, hr₀, rfl⟩ := synthCat_rows _ r hr
         simpa using chain_amount_noym _ r₀ hr₀)
      | (show List.filter _ _ = _
         first
           | exact filter_pos_of_one (chain_amount_ym _)
           | exact filter_pos_of_one (chain_amount_noym _))
      | (show List.map _ (List.filter _ _) = List.map _ _
         first
           | rw [filter_pos_of_one (chain_amount_ym _)]
           | rw [filter_pos_of_one (chain_amount_noym _)])

/-! ## Heap lemmas for the object-identity model -/

lemma Heap.length_push (h : Heap) (t : Table) : (h.push t).length = h.length + 1 := by
  simp [Heap.push]

lemma Heap.length_write (h : Heap) (b : Nat) (t : Table) :
    (h.write b t).length = h.length := by
  simp [Heap.write]

lemma Heap.read_push_lt (h : Heap) (t : Table) (a : Nat) (ha : a < h.length) :
    (h.push t).read a = h.read a := by
  simp only [Heap.read, Heap.push, List.getD_eq_getElem?_getD]
  rw [List.getElem?_append_left ha]

lemma Heap.read_write_ne (h : Heap) (b : Nat) (t : Table) (a : Nat) (hne : b ≠ a) :
    (h.write b t).read a = h.read a := by
  simp only [Heap.read, Heap.write, List.getD_eq_getElem?_getD]
  rw [List.getElem?_set_ne hne]

/-- Heaps reachable from `h0` by allocating new frames and writing only at
addresses that did not exist in `h0`. -/
inductive HeapExt (h0 : Heap) : Heap → Prop where
  | refl : HeapExt h0 h0
  | push (t : Table) {h' : Heap} : HeapExt h0 h' → HeapExt h0 (h'.push t)
  | write (b : Nat) (t : Table) {h' : Heap} :
      HeapExt h0 h' → h0.length ≤ b → HeapExt h0 (h'.write b t)

lemma HeapExt.length_le {h0 h' : Heap} (e : HeapExt h0 h') : h0.length ≤ h'.length := by
  induction e with
  | refl => exact le_refl _
  | push t _ ih => rw [Heap.length_push]; omega
  | write b t _ _ ih => rw [Heap.length_write]; exact ih

lemma HeapExt.read_lt {h0 h' : Heap} (e : HeapExt h0 h') (a : Nat) (ha : a < h0.length) :
    h'.read a = h0.read a := by
  induction e with
  | refl => rfl
  | push t e' ih => rw [Heap.read_push_lt _ _ _ (lt_of_lt_of_le ha e'.length_le), ih]
  | write b t e' hb ih =>
      rw [Heap.read_write_ne _ _ _ _ (by omega), ih]

lemma HeapExt.ite {h0 h1 h2 : Heap} (c : Prop) [Decidable c]
    (e1 : HeapExt h0 h1) (e2 : HeapExt h0 h2) : HeapExt h0 (if c then h1 else h2) := by
  split <;> assumption

lemma manipulate_clean_vat (t : Table) :
    ∀ r ∈ (manipulate t).clean.rows, r.vat = round2 (getQ r.amount * 0.20) := by
  simp only [manipulate]
  split <;> split <;> split <;> (try split) <;>
    first
      | exact addVat_rows_vat _
      | (intro r hr
         obtain ⟨r₀, hr₀, rfl⟩ := synthCat_rows _ r hr
         simpa using addVat_rows_vat _ r₀ hr₀)

/-! ## The spreadsheet-to-HTML exporter (`1.ExcelToHTML/main.py`)

`pd.read_excel(path, dtype=str)` yields sheets of string-typed cells with
`NaN` for missing values, modelled as `Option String`. -/

/-- One sheet of a workbook as loaded with `dtype=str`: its name, the
column headers, and the cell grid (`none` = missing value). -/
structure Sheet where
  name : String
  header : List String
  cells : List (List (Option String))
deriving DecidableEq, Repr

/-- A spreadsheet workbook: its sheets in file order. -/
structure Workbook where
  sheets : List Sheet
deriving DecidableEq, Repr

/-- A DataFrame of the exporter after `fillna`: all cells are strings. -/
structure Df where
  header : List String
  rows : List (List String)
deriving DecidableEq, Repr

/-- Models `df.fillna(args.na)` on a `dtype=str` sheet. -/
def fillnaDf (naRep : String) (sh : Sheet) : Df :=
  ⟨sh.header, sh.cells.map (fun row => row.map (fun c => c.getD naRep))⟩

/-- Models `pd.read_excel(path, sheet_name=s)` for a string `s`: the sheet
of that name, or the `ValueError` pandas raises when it is absent. -/
def findSheet (wb : Workbook) (s : String) : Except String Sheet :=
  match wb.sheets.find? (fun sh => sh.name == s) with
  | some sh => .ok sh
  | none => .error ("Worksheet named '" ++ s ++ "' not found")

/-- HTML escaping of one character, as `DataFrame.to_html` (default
`escape=True`) performs on cell and header text. -/
def escChar (c : Char) : List Char :=
  if c = '&' then "&amp;".data
  else if c = '<' then "&lt;".data
  else if c = '>' then "&gt;".data
  else [c]

/-- HTML escaping of a string. -/
def escapeHtml (s : String) : String :=
  String.mk ((s.data.map escChar).flatten)

/-- Decimal digit character. -/
def digitChar10 (n : Nat) : Char :=
  if n = 0 then '0' else if n = 1 then '1' else if n = 2 then '2'
  else if n = 3 then '3' else if n = 4 then '4' else if n = 5 then '5'
  else if n = 6 then '6' else if n = 7 then '7' else if n = 8 then '8' else '9'

/-- Decimal digits of `n` prepended to `acc`; structural recursion on a
fuel argument (any fuel at least the digit count gives the digits). -/
def natStrGo : Nat → Nat → List Char → List Char
  | 0, n, acc => digitChar10 (n % 10) :: acc
  | fuel + 1, n, acc =>
      if n < 10 then digitChar10 n :: acc
      else natStrGo fuel (n / 10) (digitChar10 (n % 10) :: acc)

/-- Models Python `str(i)` for a natural number (the f-string table ids). -/
def natStr (n : Nat) : String :=
  String.mk (natStrGo n n [])

/-- Models Python `"".join(parts)`. -/
def strJoin (L : List String) : String :=
  L.foldr (fun s r => s ++ r) ""

/-- Models `df.to_html(index=False, border=0, classes="tbl", table_id=tid)`:
one `<table>` element with a header row of `<th>` cells and one `<tr>` of
`<td>` cells per data row, all text HTML-escaped. -/
def dfToHtmlTable (tid : String) (df : Df) : String :=
  "<table border=\"0\" class=\"dataframe tbl\" id=\"" ++ tid ++ "\">\n<thead>\n<tr>"
  ++ strJoin (df.header.map (fun h => "<th>" ++ escapeHtml h ++ "</th>"))
  ++ "</tr>\n</thead>\n<tbody>\n"
  ++ strJoin (df.rows.map (fun row =>
       "<tr>" ++ strJoin (row.map (fun cell => "<td>" ++ escapeHtml cell ++ "</td>")) ++ "</tr>\n"))
  ++ "</tbody>\n</table>"

/-- The fixed page prologue of both `df_to_html` and `dfs_to_html`
(doctype, head with the embedded CSS, opening of the body). -/
def pageHead : String :=
  "<!doctype html>\n<html>\n<head>\n<meta charset=\"utf-8\">\n<title>Excel to HTML</title>\n<style>\n    body \x7b font-family: Arial, Helvetica, sans-serif; margin: 24px; \x7d\n    h2 \x7b margin-top: 32px; \x7d\n    table.tbl \x7b border-collapse: collapse; width: 100%; \x7d\n    table.tbl th, table.tbl td \x7b border: 1px solid #ddd; padding: 8px; \x7d\n    table.tbl tr:nth-child(even) \x7b background: #f9f9f9; \x7d\n    table.tbl th \x7b background: #f1f1f1; text-align: left; \x7d\n</style>\n</head>\n<body>\n"

/-- The fixed page epilogue. -/
def pageFoot : String := "\n</body>\n</html>"

/-- Models `df_to_html`: the single-sheet page. -/
def dfToHtml (df : Df) : String :=
  pageHead ++ dfToHtmlTable "table1" df ++ pageFoot

/-- Models the loop body of `dfs_to_html`: for each sheet (numbered from
`i`), a heading holding the sheet name — interpolated unescaped by the
f-string — followed by its table with id `tbl_{i}`. -/
def sheetParts (i : Nat) : List (String × Df) → List String
  | [] => []
  | (n, df) :: rest =>
      ("<h2>" ++ n ++ "</h2>\n" ++ dfToHtmlTable ("tbl_" ++ natStr i) df)
        :: sheetParts (i + 1) rest

/-- Models `dfs_to_html`: the all-sheets page. -/
def dfsToHtml (sheets : List (String × Df)) : String :=
  pageHead ++ strJoin (sheetParts 1 sheets) ++ pageFoot

/-- Models the output step of `main`: with `--out` the page is written to
that file and a confirmation is printed; otherwise it goes to stdout.
Result: `(text printed to stdout, files written as (path, contents))`. -/
def emit (html : String) (outArg : Option String) : Except String (String × List (String × String)) :=
  match outArg with
  | some p => .ok ("Written HTML to: " ++ p, [(p, html)])
  | none => .ok (html, [])

/-- Models Python `str.lower` (on the ASCII letters the `--sheet` check
compares). -/
def pyLower (s : String) : String :=
  String.mk (s.data.map Char.toLower)

/-- Models `main` of the exporter on an already-parsed workbook.
`sheetArg`/`outArg`/`naRep` are `--sheet`/`--out`/`--na`.  An uncaught
pandas exception (absent sheet) aborts the run with a non-zero exit before
any output file is opened: modelled as `Except.error`.  With `--sheet`
omitted the source passes `sheet_name=None`, `pd.read_excel` returns a
dict of sheets, and `df.fillna` raises `AttributeError`; modelled as that
error. -/
def mainHtml (wb : Workbook) (sheetArg : Option String) (outArg : Option String)
    (naRep : String) : Except String (String × List (String × String)) :=
  match sheetArg with
  | some s =>
      if s != "" && pyLower s == "all" then
        emit (dfsToHtml (wb.sheets.map (fun sh => (sh.name, fillnaDf naRep sh)))) outArg
      else do
        let sh ← findSheet wb s
        emit (dfToHtml (fillnaDf naRep sh)) outArg
  | none => .error "AttributeError: 'dict' object has no attribute 'fillna'"

/-! ## Counting `<table` occurrences in rendered HTML -/

/-- The characters opening an HTML `<table>` element. -/
def tablePat : List Char := ['<', 't', 'a', 'b', 'l', 'e']

/-- Number of positions of `l` at which `pat` occurs as a substring. -/
def countSub (pat : List Char) : List Char → Nat
  | [] => 0
  | c :: cs => (if pat.isPrefixOf (c :: cs) then 1 else 0) + countSub pat cs

/-- Number of `<table` element openings in a rendered page. -/
def countTables (s : String) : Nat := countSub tablePat s.data

/-- No nonempty proper prefix of `<table` is a suffix of `p`: text appended
after `p` completes no `<table` occurrence begun inside `p`. -/
def SafeL (p : List Char) : Prop :=
  ¬ ['<'] <:+ p ∧ ¬ ['<', 't'] <:+ p ∧ ¬ ['<', 't', 'a'] <:+ p ∧
  ¬ ['<', 't', 'a', 'b'] <:+ p ∧ ¬ ['<', 't', 'a', 'b', 'l'] <:+ p

/-- No nonempty proper suffix of `<table` is a prefix of `p`: text
prepended before `p` completes no `<table` occurrence ending inside `p`. -/
def SafeR (p : List Char) : Prop :=
  ¬ ['t', 'a', 'b', 'l', 'e'] <+: p ∧ ¬ ['a', 'b', 'l', 'e'] <+: p ∧
  ¬ ['b', 'l', 'e'] <+: p ∧ ¬ ['l', 'e'] <+: p ∧ ¬ ['e'] <+: p

instance (p : List Char) : Decidable (SafeL p) := by unfold SafeL; infer_instance

instance (p : List Char) : Decidable (SafeR p) := by unfold SafeR; infer_instance

lemma prefix_of_prefix_append {p a b : List Char} (hp : p <+: a ++ b)
    (hl : p.length ≤ a.length) : p <+: a := by
  rw [List.prefix_iff_eq_take] at hp ⊢
  exact hp.trans (List.take_append_of_le_length hl)

lemma suffix_of_suffix_append {p a b : List Char} (hp : p <:+ a ++ b)
    (hl : p.length ≤ b.length) : p <:+ b := by
  rw [← List.reverse_prefix] at hp ⊢
  rw [List.reverse_append] at hp
  exact prefix_of_prefix_append hp (by simpa using hl)

lemma tablePat_splits (p₁ p₂ : List Char) (h : tablePat = p₁ ++ p₂)
    (h1 : p₁ ≠ []) (h2 : p₂ ≠ []) :
    (p₁ = ['<'] ∧ p₂ = ['t', 'a', 'b', 'l', 'e']) ∨
    (p₁ = ['<', 't'] ∧ p₂ = ['a', 'b', 'l', 'e']) ∨
    (p₁ = ['<', 't', 'a'] ∧ p₂ = ['b', 'l', 'e']) ∨
    (p₁ = ['<', 't', 'a', 'b'] ∧ p₂ = ['l', 'e']) ∨
    (p₁ = ['<', 't', 'a', 'b', 'l'] ∧ p₂ = ['e']) := by
  have hp : p₁ = tablePat.take p₁.length := by rw [h, List.take_left]
  have hq : p₂ = tablePat.drop p₁.length := by rw [h, List.drop_left]
  have hlen : p₁.length + p₂.length = 6 := by
    have := congrArg List.length h
    simpa [tablePat] using this.symm
  have h1' : 0 < p₁.length := List.length_pos.mpr h1
  have h2' : 0 < p₂.length := List.length_pos.mpr h2
  have hcase : p₁.length = 1 ∨ p₁.length = 2 ∨ p₁.length = 3 ∨ p₁.length = 4 ∨
      p₁.length = 5 := by omega
  rcases hcase with h' | h' | h' | h' | h' <;> rw [h'] at hp hq <;>
    first
      | exact Or.inl ⟨hp, hq⟩
      | exact Or.inr (Or.inl ⟨hp, hq⟩)
      | exact Or.inr (Or.inr (Or.inl ⟨hp, hq⟩))
      | exact Or.inr (Or.inr (Or.inr (Or.inl ⟨hp, hq⟩)))
      | exact Or.inr (Or.inr (Or.inr (Or.inr ⟨hp, hq⟩)))

lemma countSub_append (a b : List Char) (hs : SafeL a ∨ SafeR b) :
    countSub tablePat (a ++ b) = countSub tablePat a + countSub tablePat b := by
  induction a with
  | nil => simp [countSub]
  | cons c a' ih =>
    have hs' : SafeL a' ∨ SafeR b := by
      rcases hs with hL | hR
      · exact Or.inl ⟨fun hx => hL.1 (hx.trans (List.suffix_cons c a')),
          fun hx => hL.2.1 (hx.trans (List.suffix_cons c a')),
          fun hx => hL.2.2.1 (hx.trans (List.suffix_cons c a')),
          fun hx => hL.2.2.2.1 (hx.trans (List.suffix_cons c a')),
          fun hx => hL.2.2.2.2 (hx.trans (List.suffix_cons c a'))⟩
      · exact Or.inr hR
    have hhead : tablePat.isPrefixOf (c :: (a' ++ b)) = tablePat.isPrefixOf (c :: a') := by
      rw [Bool.eq_iff_iff, List.isPrefixOf_iff_prefix, List.isPrefixOf_iff_prefix]
      constructor
      · intro hpre
        by_cases hle : tablePat.length ≤ (c :: a').length
        · exact prefix_of_prefix_append (a := c :: a') (b := b) hpre hle
        · exfalso
          push_neg at hle
          have hca : (c :: a') <+: tablePat := by
            have hx : (c :: a') <+: (c :: a') ++ b := List.prefix_append _ _
            have hy : tablePat <+: (c :: a') ++ b := hpre
            rcases List.prefix_or_prefix_of_prefix hx hy with h | h
            · exact h
            · exact absurd h.length_le (not_le.mpr hle)
          obtain ⟨p₂, hp2⟩ := hca
          have hp2ne : p₂ ≠ [] := by
            intro hnil
            rw [hnil, List.append_nil] at hp2
            have hlen2 : (c :: a').length = tablePat.length := congrArg List.length hp2
            omega
          have hp2b : p₂ <+: b := by
            obtain ⟨t, ht⟩ := hpre
            refine ⟨t, ?_⟩
            have hx : ((c :: a') ++ p₂) ++ t = (c :: a') ++ b := by
              rw [hp2]; exact ht
            rw [List.append_assoc] at hx
            exact List.append_cancel_left hx
          have hsplit := tablePat_splits (c :: a') p₂ hp2.symm (by simp) hp2ne
          rcases hs with hL | hR
          · obtain ⟨hL1, hL2, hL3, hL4, hL5⟩ := hL
            rcases hsplit with ⟨hc1, _⟩ | ⟨hc1, _⟩ | ⟨hc1, _⟩ | ⟨hc1, _⟩ | ⟨hc1, _⟩ <;>
              rw [hc1] at hL1 hL2 hL3 hL4 hL5 <;>
              first
                | exact hL1 (by decide)
                | exact hL2 (by decide)
                | exact hL3 (by decide)
                | exact hL4 (by decide)
                | exact hL5 (by decide)
          · rcases hsplit with ⟨_, hc2⟩ | ⟨_, hc2⟩ | ⟨_, hc2⟩ | ⟨_, hc2⟩ | ⟨_, hc2⟩ <;>
              first
                | exact hR.1 (by rw [← hc2]; exact hp2b)
                | exact hR.2.1 (by rw [← hc2]; exact hp2b)
                | exact hR.2.2.1 (by rw [← hc2]; exact hp2b)
                | exact hR.2.2.2.1 (by rw [← hc2]; exact hp2b)
                | exact hR.2.2.2.2 (by rw [← hc2]; exact hp2b)
      · intro hpre
        exact hpre.trans (List.prefix_append (c :: a') b)
    simp only [List.cons_append, countSub, List.append_eq]
    simp only [hhead]
    rw [ih hs']
    omega

lemma countSub_append_safeL {a b : List Char} (ha : SafeL a) :
    countSub tablePat (a ++ b) = countSub tablePat a + countSub tablePat b :=
  countSub_append a b (Or.inl ha)

lemma countSub_append_safeR {a b : List Char} (hb : SafeR b) :
    countSub tablePat (a ++ b) = countSub tablePat a + countSub tablePat b :=
  countSub_append a b (Or.inr hb)

lemma countSub_zero_of_not_mem {l : List Char} (h : '<' ∉ l) :
    countSub tablePat l = 0 := by
  induction l with
  | nil => rfl
  | cons c cs ih =>
    have hc : c ≠ '<' := fun hcc => h (hcc ▸ List.mem_cons_self c cs)
    have hpre : tablePat.isPrefixOf (c :: cs) = false := by
      cases hb : tablePat.isPrefixOf (c :: cs)
      · rfl
      · exfalso
        obtain ⟨t, ht⟩ := List.isPrefixOf_iff_prefix.mp hb
        have hhd : '<' = c := by
          have := congrArg List.head? ht
          simpa [tablePat] using this
        exact hc hhd.symm
    simp [countSub, hpre, ih (fun hm => h (List.mem_cons_of_mem _ hm))]

lemma safeL_of_not_mem {l : List Char} (h : '<' ∉ l) : SafeL l := by
  refine ⟨?_, ?_, ?_, ?_, ?_⟩ <;> intro hsuf <;> exact h (hsuf.subset (by simp))

lemma safeL_append_right {a b : List Char} (hb : SafeL b) (hlen : 5 ≤ b.length) :
    SafeL (a ++ b) := by
  refine ⟨?_, ?_, ?_, ?_, ?_⟩ <;> intro hsuf
  · exact hb.1 (suffix_of_suffix_append hsuf (by simp; omega))
  · exact hb.2.1 (suffix_of_suffix_append hsuf (by simp; omega))
  · exact hb.2.2.1 (suffix_of_suffix_append hsuf (by simp; omega))
  · exact hb.2.2.2.1 (suffix_of_suffix_append hsuf (by simp; omega))
  · exact hb.2.2.2.2 (suffix_of_suffix_append hsuf (by simp; omega))

lemma strJoin_cons (s : String) (rest : List String) :
    strJoin (s :: rest) = s ++ strJoin rest := rfl

lemma countSub_strJoin (L : List String) (h : ∀ s ∈ L, SafeL s.data) :
    countSub tablePat (strJoin L).data =
      (L.map (fun s => countSub tablePat s.data)).sum := by
  induction L with
  | nil => rfl
  | cons s rest ih =>
    rw [strJoin_cons, String.data_append, countSub_append_safeL (h s (by simp)),
      ih (fun x hx => h x (by simp [hx]))]
    simp

lemma not_mem_escChar (c : Char) : '<' ∉ escChar c := by
  unfold escChar
  split_ifs with h1 h2 h3
  · decide
  · decide
  · decide
  · simp only [List.mem_singleton]
    exact fun hc => h2 hc.symm

lemma not_mem_escapeHtml (s : String) : '<' ∉ (escapeHtml s).data := by
  intro hm
  simp only [escapeHtml] at hm
  rw [List.mem_flatten] at hm
  obtain ⟨lc, hlc, hmem⟩ := hm
  rw [List.mem_map] at hlc
  obtain ⟨c, _, rfl⟩ := hlc
  exact not_mem_escChar c hmem

lemma digitChar10_ne_lt (n : Nat) : digitChar10 n ≠ '<' := by
  unfold digitChar10
  split_ifs <;> decide

lemma not_mem_natStrGo (fuel n : Nat) (acc : List Char) (h : '<' ∉ acc) :
    '<' ∉ natStrGo fuel n acc := by
  induction fuel generalizing n acc with
  | zero =>
    intro hm
    rcases List.mem_cons.mp hm with h1 | h1
    · exact digitChar10_ne_lt _ h1.symm
    · exact h h1
  | succ fuel ih =>
    rw [natStrGo]
    split
    · intro hm
      rcases List.mem_cons.mp hm with h1 | h1
      · exact digitChar10_ne_lt _ h1.symm
      · exact h h1
    · apply ih
      intro hm
      rcases List.mem_cons.mp hm with h1 | h1
      · exact digitChar10_ne_lt _ h1.symm
      · exact h h1

lemma not_mem_natStr (n : Nat) : '<' ∉ (natStr n).data :=
  not_mem_natStrGo n n [] (by simp)

lemma countSub_dfToHtmlTable (tid : String) (df : Df) (htid : '<' ∉ tid.data) :
    countSub tablePat (dfToHtmlTable tid df).data = 1 := by
  have hTH : ∀ s ∈ df.header.map (fun h => "<th>" ++ escapeHtml h ++ "</th>"),
      SafeL s.data ∧ countSub tablePat s.data = 0 := by
    intro s hs
    rw [List.mem_map] at hs
    obtain ⟨hcol, _, rfl⟩ := hs
    simp only [String.data_append]
    constructor
    · exact safeL_append_right (by decide) (by decide)
    · rw [countSub_append_safeR (by decide : SafeR ("</th>" : String).data),
        countSub_append_safeL (by decide : SafeL ("<th>" : String).data),
        countSub_zero_of_not_mem (not_mem_escapeHtml _)]
      decide
  have hTR : ∀ s ∈ df.rows.map (fun row =>
      "<tr>" ++ strJoin (row.map (fun cell => "<td>" ++ escapeHtml cell ++ "</td>")) ++ "</tr>\n"),
      SafeL s.data ∧ countSub tablePat s.data = 0 := by
    intro s hs
    rw [List.mem_map] at hs
    obtain ⟨row, _, rfl⟩ := hs
    have hTD : ∀ s ∈ row.map (fun cell => "<td>" ++ escapeHtml cell ++ "</td>"),
        SafeL s.data ∧ countSub tablePat s.data = 0 := by
      intro s hsd
      rw [List.mem_map] at hsd
      obtain ⟨cell, _, rfl⟩ := hsd
      simp only [String.data_append]
      constructor
      · exact safeL_append_right (by decide) (by decide)
      · rw [countSub_append_safeR (by decide : SafeR ("</td>" : String).data),
          countSub_append_safeL (by decide : SafeL ("<td>" : String).data),
          countSub_zero_of_not_mem (not_mem_escapeHtml _)]
        decide
    simp only [String.data_append]
    constructor
    · exact safeL_append_right (by decide) (by decide)
    · rw [countSub_append_safeR (by decide : SafeR ("</tr>\n" : String).data),
        countSub_append_safeL (by decide : SafeL ("<tr>" : String).data),
        countSub_strJoin _ (fun s hsd => (hTD s hsd).1)]
      have hz : ((row.map (fun cell => "<td>" ++ escapeHtml cell ++ "</td>")).map
          (fun s => countSub tablePat s.data)).sum = 0 := by
        apply List.sum_eq_zero
        intro x hx
        rw [List.mem_map] at hx
        obtain ⟨s, hsd, rfl⟩ := hx
        exact (hTD s hsd).2
      rw [hz]
      decide
  simp only [dfToHtmlTable, String.data_append]
  rw [countSub_append_safeR (by decide : SafeR ("</tbody>\n</table>" : String).data),
    countSub_append_safeL
      (safeL_append_right (b := ("</tr>\n</thead>\n<tbody>\n" : String).data)
        (by decide) (by decide)),
    countSub_append_safeR (by decide : SafeR ("</tr>\n</thead>\n<tbody>\n" : String).data),
    countSub_append_safeL
      (safeL_append_right (b := ("\">\n<thead>\n<tr>" : String).data)
        (by decide) (by decide)),
    countSub_append_safeR (by decide : SafeR ("\">\n<thead>\n<tr>" : String).data),
    countSub_append_safeL
      (by decide : SafeL ("<table border=\"0\" class=\"dataframe tbl\" id=\"" : String).data),
    countSub_zero_of_not_mem htid,
    countSub_strJoin _ (fun s hs => (hTH s hs).1),
    countSub_strJoin _ (fun s hs => (hTR s hs).1)]
  have hz1 : ((df.header.map (fun h => "<th>" ++ escapeHtml h ++ "</th>")).map
      (fun s => countSub tablePat s.data)).sum = 0 := by
    apply List.sum_eq_zero
    intro x hx
    rw [List.mem_map] at hx
    obtain ⟨s, hs, rfl⟩ := hx
    exact (hTH s hs).2
  have hz2 : ((df.rows.map (fun row =>
      "<tr>" ++ strJoin (row.map (fun cell => "<td>" ++ escapeHtml cell ++ "</td>")) ++ "</tr>\n")).map
      (fun s => countSub tablePat s.data)).sum = 0 := by
    apply List.sum_eq_zero
    intro x hx
    rw [List.mem_map] at hx
    obtain ⟨s, hs, rfl⟩ := hx
    exact (hTR s hs).2
  rw [hz1, hz2]
  decide

lemma safeL_dfToHtmlTable (tid : String) (df : Df) : SafeL (dfToHtmlTable tid df).data := by
  simp only [dfToHtmlTable, String.data_append]
  exact safeL_append_right (by decide) (by decide)

lemma length_dfToHtmlTable (tid : String) (df : Df) :
    5 ≤ (dfToHtmlTable tid df).data.length := by
  simp only [dfToHtmlTable, String.data_append, List.length_append, List.length_cons,
    List.length_nil]
  omega

lemma countSub_sheetPart (n : String) (tid : String) (df : Df)
    (hn : countSub tablePat n.data = 0) (htid : '<' ∉ tid.data) :
    countSub tablePat ("<h2>" ++ n ++ "</h2>\n" ++ dfToHtmlTable tid df).data = 1 := by
  simp only [String.data_append]
  rw [countSub_append_safeL
      (safeL_append_right (b := ("</h2>\n" : String).data) (by decide) (by decide)),
    countSub_append_safeR (by decide : SafeR ("</h2>\n" : String).data),
    countSub_append_safeL (by decide : SafeL ("<h2>" : String).data),
    hn, countSub_dfToHtmlTable tid df htid]
  have e1 : countSub tablePat ("<h2>" : String).data = 0 := by decide
  have e2 : countSub tablePat ("</h2>\n" : String).data = 0 := by decide
  omega

lemma safeL_sheetPart (n : String) (tid : String) (df : Df) :
    SafeL ("<h2>" ++ n ++ "</h2>\n" ++ dfToHtmlTable tid df).data := by
  simp only [String.data_append]
  exact safeL_append_right (safeL_dfToHtmlTable tid df) (length_dfToHtmlTable tid df)

lemma sheetParts_safeL (sheets : List (String × Df)) (i : Nat) :
    ∀ s ∈ sheetParts i sheets, SafeL s.data := by
  induction sheets generalizing i with
  | nil => intro s hs; cases hs
  | cons p rest ih =>
    obtain ⟨n, df⟩ := p
    intro s hs
    rcases List.mem_cons.mp hs with rfl | hs'
    · exact safeL_sheetPart n _ df
    · exact ih (i + 1) s hs'

lemma sheetParts_count (sheets : List (String × Df)) (i : Nat)
    (hnames : ∀ p ∈ sheets, countSub tablePat p.1.data = 0) :
    ((sheetParts i sheets).map (fun s => countSub tablePat s.data)).sum = sheets.length := by
  induction sheets generalizing i with
  | nil => rfl
  | cons p rest ih =>
    obtain ⟨n, df⟩ := p
    simp only [sheetParts, List.map_cons, List.sum_cons, List.length_cons]
    rw [countSub_sheetPart n ("tbl_" ++ natStr i) df (hnames (n, df) (by simp)) ?htid,
      ih (i + 1) (fun q hq => hnames q (by simp [hq]))]
    · omega
    case htid =>
      simp only [String.data_append]
      intro hm
      rcases List.mem_append.mp hm with h | h
      · revert h; decide
      · exact not_mem_natStr i h

set_option maxRecDepth 100000 in
lemma countTables_dfsToHtml (sheets : List (String × Df))
    (hnames : ∀ p ∈ sheets, countSub tablePat p.1.data = 0) :
    countTables (dfsToHtml sheets) = sheets.length := by
  unfold countTables dfsToHtml
  simp only [String.data_append]
  rw [countSub_append_safeR (by decide : SafeR pageFoot.data),
    countSub_append_safeL (by decide : SafeL pageHead.data),
    countSub_strJoin _ (sheetParts_safeL sheets 1),
    sheetParts_count sheets 1 hnames]
  have e1 : countSub tablePat pageHead.data = 0 := by decide
  have e2 : countSub tablePat pageFoot.data = 0 := by decide
  omega

/-! ## Concrete fixtures used by witnesses and counterexamples -/

/-- An input frame with a literal `YearMonth` column but no `Date` column. -/
def ymOnlyTable : Table :=
  { hasDate := false, hasCategory := true, hasAmount := true, hasNotes := false,
    hasYearMonth := true, hasVat := false,
    rows := [⟨.na, .str "A", .num 5, .na, "2025-01", 0⟩] }

/-- An input frame without an `Amount` column. -/
def noAmountTable : Table :=
  { hasDate := false, hasCategory := true, hasAmount := false, hasNotes := true,
    hasYearMonth := false, hasVat := false,
    rows := [⟨.na, .str "X", .na, .str "note", "", 0⟩] }

/-- The first cleaned row of the sample frame. -/
def sampleCleanRow : Row :=
  ⟨.dt 2025 1 5, .str "Food", .num 50, .str "Groceries", "2025-01", 10⟩

/-- A workbook whose only sheet is named `x<table>`. -/
def wbInj : Workbook := ⟨[⟨"x<table>", ["A"], [[some "1"]]⟩]⟩

/-- A two-sheet workbook with ordinary names. -/
def wbTwo : Workbook := ⟨[⟨"S1", ["A"], [[some "1"]]⟩, ⟨"S2", ["B"], [[none]]⟩]⟩

/-- A workbook containing a sheet literally named `ALL`. -/
def wbAll : Workbook := ⟨[⟨"ALL", ["A"], [[some "1"]]⟩, ⟨"Other", ["B"], [[some "2"]]⟩]⟩

/-! ## The claims -/

section ClaimProofs

attribute [local semireducible] Rat.add Rat.mul Rat.sub Rat.inv Rat.ofScientific

set_option maxRecDepth 1000000

/-- C1 (counterexample): the claim says the Totals dataset of the six-row
sample contains `Food=125`; in fact `manipulate` groups by `Category` and
`YearMonth` (the sample has a `Date` column), so no Totals entry has
category `Food` with amount `125`. -/
theorem claim_C1_counterexample :
    ¬ ∃ e ∈ (manipulate sampleTable).totals,
        e.category = Cell.str "Food" ∧ e.amount = 125 := by
  decide

/-- C1 (amended): on the six-row sample, Totals holds the per-month sums
Food/2025-01=50, Food/2025-02=30, Food/2025-03=45, Rent/2025-02=500,
Transport/2025-01=20, Transport/2025-03=25 (the claimed Food=125,
Transport=45, Rent=500 arise only after summing a category across months),
and the Pivot has the Food row `50, 30, 45` across the three months with
zeros exactly in the empty (category, month) combinations. -/
theorem claim_C1 :
    (manipulate sampleTable).totals =
      [⟨.str "Food", some "2025-01", 50⟩, ⟨.str "Food", some "2025-02", 30⟩,
       ⟨.str "Food", some "2025-03", 45⟩, ⟨.str "Rent", some "2025-02", 500⟩,
       ⟨.str "Transport", some "2025-01", 20⟩, ⟨.str "Transport", some "2025-03", 25⟩] ∧
    (manipulate sampleTable).pivot = some ⟨[
      (.str "Food", [("2025-01", 50), ("2025-02", 30), ("2025-03", 45)]),
      (.str "Rent", [("2025-01", 0), ("2025-02", 500), ("2025-03", 0)]),
      (.str "Transport", [("2025-01", 20), ("2025-02", 0), ("2025-03", 25)])]⟩ := by
  constructor
  · decide
  · decide

/-- C2: every Totals entry's amount is the sum of `Amount` over exactly the
positive-only rows sharing the entry's category — and, when the cleaned
data has a `YearMonth` column, its year-month — and the Totals rows are
sorted by category then year-month ascending. -/
theorem claim_C2 (t : Table) :
    (∀ e ∈ (manipulate t).totals,
        e.amount = sumAmounts ((manipulate t).pos.rows.filter
          (matchesEntry (manipulate t).clean.hasYearMonth e))) ∧
    List.Pairwise entryLe (manipulate t).totals := by
  have hYM := manipulate_clean_hasYM t
  have hT := manipulate_totals_def t
  constructor
  · intro e he
    rw [hT] at he
    rw [hYM]
    exact totalsFor_mem_amount _ _ _ he
  · rw [hT]
    exact totalsFor_sorted _ _

/-- Witness for C2 at the six-row sample: the Food/2025-01 entry is a
Totals row and its amount is the matching positive-row sum. -/
theorem claim_C2_witness :
    (⟨Cell.str "Food", some "2025-01", 50⟩ : TotalsRow) ∈ (manipulate sampleTable).totals ∧
    (⟨Cell.str "Food", some "2025-01", 50⟩ : TotalsRow).amount =
      sumAmounts ((manipulate sampleTable).pos.rows.filter
        (matchesEntry (manipulate sampleTable).clean.hasYearMonth
          ⟨Cell.str "Food", some "2025-01", 50⟩)) ∧
    List.Pairwise entryLe (manipulate sampleTable).totals :=
  ⟨by decide,
   (claim_C2 sampleTable).1 ⟨Cell.str "Food", some "2025-01", 50⟩ (by decide),
   (claim_C2 sampleTable).2⟩

/-- C3 (counterexample): the claim says the Pivot is produced only when a
date-derived year-month column exists; but `manipulate` tests
`"YearMonth" in df.columns`, so an input that already carries a
`YearMonth` column and has no `Date` column still gets a pivot. -/
theorem claim_C3_counterexample :
    (manipulate ymOnlyTable).pivot ≠ none ∧ ymOnlyTable.hasDate = false := by
  constructor
  · decide
  · rfl

/-- C3 (amended): the Pivot is produced iff a `YearMonth` column exists
after cleaning — that is, iff the input has a `Date` column or already had
a `YearMonth` column.  When produced, for every category of the
positive-only rows (a missing category forms no pivot row, as `pivot_table`
drops `NaN` keys) and every year-month of those rows, the pivot cell is
the sum of `Amount` over the positive-only rows with that category and
year-month (`0` when none), and the pivot rows are sorted by category. -/
theorem claim_C3 (t : Table) :
    ((manipulate t).pivot ≠ none ↔ (t.hasDate || t.hasYearMonth) = true) ∧
    (∀ pv, (manipulate t).pivot = some pv →
      (∀ c ∈ presentCats (manipulate t).pos.rows,
        ∀ m ∈ presentYMs (manipulate t).pos.rows,
          pv.cell? c m = some (sumAmounts ((manipulate t).pos.rows.filter
            (fun r => r.category == c && r.yearMonth == m)))) ∧
      List.Pairwise (fun a b => cellLe a.1 b.1) pv.rows) := by
  have hP := manipulate_pivot_def t
  constructor
  · by_cases hb : (t.hasDate || t.hasYearMonth) = true
    · rw [hP, if_pos hb]
      simp [hb]
    · rw [hP, if_neg hb]
      simp [hb]
  · intro pv hpv
    rw [hP] at hpv
    by_cases hb : (t.hasDate || t.hasYearMonth) = true
    · rw [if_pos hb] at hpv
      obtain rfl : pivotFor (manipulate t).pos.rows = pv := Option.some.inj hpv
      exact ⟨fun c hc m hm => pivotFor_cell _ c m hc hm, pivotFor_sorted _⟩
    · rw [if_neg hb] at hpv
      cases hpv

/-- Witness for C3 at the six-row sample: the pivot exists, its
Food/2025-01 cell is the matching positive-row sum, and its rows are
sorted by category. -/
theorem claim_C3_witness :
    ∃ pv, (manipulate sampleTable).pivot = some pv ∧
      pv.cell? (Cell.str "Food") "2025-01" =
        some (sumAmounts ((manipulate sampleTable).pos.rows.filter
          (fun r => r.category == Cell.str "Food" && r.yearMonth == "2025-01"))) ∧
      List.Pairwise (fun a b => cellLe a.1 b.1) pv.rows := by
  refine ⟨⟨[(.str "Food", [("2025-01", 50), ("2025-02", 30), ("2025-03", 45)]),
    (.str "Rent", [("2025-01", 0), ("2025-02", 500), ("2025-03", 0)]),
    (.str "Transport", [("2025-01", 20), ("2025-02", 0), ("2025-03", 25)])]⟩,
    by decide, ?_, ?_⟩
  · exact ((claim_C3 sampleTable).2 _ (by decide)).1 (Cell.str "Food") (by decide)
      "2025-01" (by decide)
  · exact ((claim_C3 sampleTable).2 _ (by decide)).2

/-- C4: every row of the cleaned dataset, whatever the sign of its coerced
Amount, satisfies `VAT_20 = round(Amount * 0.20, 2)`. -/
theorem claim_C4 (t : Table) :
    ∀ r ∈ (manipulate t).clean.rows, r.vat = round2 (getQ r.amount * 0.20) :=
  manipulate_clean_vat t

/-- Witness for C4: the first cleaned sample row has `VAT_20 = 10 = round(50 * 0.20, 2)`. -/
theorem claim_C4_witness :
    sampleCleanRow ∈ (manipulate sampleTable).clean.rows ∧
    sampleCleanRow.vat = round2 (getQ sampleCleanRow.amount * 0.20) :=
  ⟨by decide, claim_C4 sampleTable sampleCleanRow (by decide)⟩

/-- C5: invoking the exporter with a sheet name that is not in the
workbook (and is not the reserved selector `all`, compared
case-insensitively) aborts with the pandas `ValueError` — a fatal error
and non-zero exit — before any output is produced: the result is
`Except.error`, which carries no written file, whatever `--out` was. -/
theorem claim_C5 (wb : Workbook) (s : String) (out : Option String) (na : String)
    (hmiss : ∀ sh ∈ wb.sheets, sh.name ≠ s) (hall : pyLower s ≠ "all") :
    mainHtml wb (some s) out na = .error ("Worksheet named '" ++ s ++ "' not found") := by
  have hcond : (s != "" && pyLower s == "all") = false := by
    rcases eq_or_ne s "" with rfl | hs
    · simp
    · simp [hs, hall]
  have hfind : wb.sheets.find? (fun sh => sh.name == s) = none := by
    apply List.find?_eq_none.mpr
    intro sh hsh
    simp [hmiss sh hsh]
  have hfs : findSheet wb s = .error ("Worksheet named '" ++ s ++ "' not found") := by
    unfold findSheet
    rw [hfind]
  simp [mainHtml, hcond, hfs]
  rfl

/-- Witness for C5: requesting sheet `Missing` of a one-sheet workbook
with `--out out.html` fails with the ValueError and writes nothing. -/
theorem claim_C5_witness :
    mainHtml wbTwo (some "Missing") (some "out.html") "" =
      .error ("Worksheet named '" ++ "Missing" ++ "' not found") :=
  claim_C5 wbTwo "Missing" (some "out.html") "" (by decide) (by decide)

/-- C6 (counterexample): the claim promises exactly `N` `<table>` elements
for every `N`-sheet workbook; but `dfs_to_html` interpolates sheet names
into `<h2>` headings unescaped, so the one-sheet workbook whose sheet is
named `x<table>` yields a page with two `<table` element openings. -/
theorem claim_C6_counterexample :
    wbInj.sheets.length = 1 ∧
    (mainHtml wbInj (some "all") none "").toOption.map (fun r => countTables r.1) =
      some 2 := by
  constructor
  · rfl
  · decide

/-- C6 (amended): for every workbook none of whose sheet names contains
the substring `<table` (names are interpolated unescaped into headings;
cell and header text is escaped by `to_html`), `--sheet all` succeeds and
produces the `dfs_to_html` page — each sheet rendered as its heading
followed by its table, in workbook order — whose number of `<table`
element openings is exactly the number of sheets. -/
theorem claim_C6 (wb : Workbook) (na : String)
    (hn : ∀ sh ∈ wb.sheets, countSub tablePat sh.name.data = 0) :
    ∃ r, mainHtml wb (some "all") none na = .ok r ∧
      r.1 = dfsToHtml (wb.sheets.map (fun sh => (sh.name, fillnaDf na sh))) ∧
      countTables r.1 = wb.sheets.length := by
  have hbranch : mainHtml wb (some "all") none na =
      .ok (dfsToHtml (wb.sheets.map fun sh => (sh.name, fillnaDf na sh)), []) := by
    simp only [mainHtml]
    rw [if_pos (by decide : (("all" : String) != "" && pyLower "all" == "all") = true)]
    rfl
  refine ⟨_, hbranch, rfl, ?_⟩
  rw [countTables_dfsToHtml _ ?_, List.length_map]
  intro p hp
  rw [List.mem_map] at hp
  obtain ⟨sh, hsh, rfl⟩ := hp
  exact hn sh hsh

/-- Witness for C6: the two-sheet workbook renders to a page with exactly
two tables. -/
theorem claim_C6_witness :
    ∃ r, mainHtml wbTwo (some "all") none "" = .ok r ∧
      r.1 = dfsToHtml (wbTwo.sheets.map (fun sh => (sh.name, fillnaDf "" sh))) ∧
      countTables r.1 = wbTwo.sheets.length :=
  claim_C6 wbTwo "" (by decide)

/-- C7: Amount coercion is idempotent — applying the
`to_numeric(..).fillna(0)` step twice to a table gives exactly the table
the first application gives. -/
theorem claim_C7 (t : Table) : coerceAmounts (coerceAmounts t) = coerceAmounts t := by
  have hc : ∀ c, coerceCell (coerceCell c) = coerceCell c := by
    intro c
    cases c with
    | num q => rfl
    | str s =>
      simp only [coerceCell, toNumericCell]
      cases parseDecimal s <;> rfl
    | dt y m d => rfl
    | na => rfl
  simp only [coerceAmounts, List.map_map]
  congr 1
  apply List.map_congr_left
  intro r _
  simp [Function.comp, hc r.amount]

/-- C8: `manipulate` does not mutate the frame the caller passed in — on
the object heap, the caller's address still holds the original frame after
the run; every in-place column assignment hits the `dropna(...).copy()`
frame or the `df_pos` copy, both allocated fresh. -/
theorem claim_C8 (h : Heap) (a : Nat) (ha : a < h.length) :
    ((manipulateH h a).1).read a = h.read a := by
  have E : HeapExt h (manipulateH h a).1 := by
    simp only [manipulateH]
    rw [apply_ite Prod.fst]
    dsimp only
    refine HeapExt.ite _ ?_ ?_ <;>
      (repeat'
        first
          | exact HeapExt.refl
          | apply HeapExt.ite
          | apply HeapExt.push
          | apply HeapExt.write) <;>
      (simp only [Heap.length_push, Heap.length_write, apply_ite List.length, ite_self]
       omega)
  exact E.read_lt a ha

/-- Witness for C8: running the pipeline on a one-frame heap leaves the
input frame at address 0 unchanged. -/
theorem claim_C8_witness :
    0 < ([sampleTable] : Heap).length ∧
    Heap.read (manipulateH [sampleTable] 0).1 0 = Heap.read [sampleTable] 0 :=
  ⟨by decide, claim_C8 [sampleTable] 0 (by decide)⟩

/-- C9: the `--sheet` argument is lowercased before comparison with
`all`, so every capitalization variant of `all` triggers all-sheets mode:
the run renders the whole workbook, never the single sheet of that name —
a sheet literally named `All` or `ALL` can never be selected
individually. -/
theorem claim_C9 (wb : Workbook) (s : String) (out : Option String) (na : String)
    (h : pyLower s = "all") :
    mainHtml wb (some s) out na =
      emit (dfsToHtml (wb.sheets.map (fun sh => (sh.name, fillnaDf na sh)))) out := by
  have hs : s ≠ "" := by
    intro he
    rw [he] at h
    exact absurd h (by decide)
  simp [mainHtml, hs, h]

/-- Witness for C9: requesting `ALL` on a workbook that contains a sheet
literally named `ALL` still renders all sheets. -/
theorem claim_C9_witness :
    pyLower "ALL" = "all" ∧
    mainHtml wbAll (some "ALL") none "" =
      emit (dfsToHtml (wbAll.sheets.map (fun sh => (sh.name, fillnaDf "" sh)))) none :=
  ⟨by decide, claim_C9 wbAll "ALL" none "" (by decide)⟩

/-- C10: when the input has no `Amount` column, a constant column of `1.0`
is synthesized before coercion, so every cleaned (non-empty) row passes
the positive filter — the positive-only rows are exactly the cleaned
rows — and every row has `Amount = 1` and `VAT_20 = 0.2`. -/
theorem claim_C10 (t : Table) (h : t.hasAmount = false) :
    (manipulate t).pos.rows = (manipulate t).clean.rows ∧
    ∀ r ∈ (manipulate t).clean.rows, r.amount = Cell.num 1 ∧ r.vat = 0.2 := by
  obtain ⟨h1, h2⟩ := manipulate_noAmount t h
  refine ⟨h2, fun r hr => ⟨h1 r hr, ?_⟩⟩
  have hv := manipulate_clean_vat t r hr
  rw [h1 r hr] at hv
  rw [hv]
  decide

/-- Witness for C10: a one-row frame without an `Amount` column keeps its
row positive with amount 1 and VAT 0.2. -/
theorem claim_C10_witness :
    noAmountTable.hasAmount = false ∧
    ((manipulate noAmountTable).pos.rows = (manipulate noAmountTable).clean.rows ∧
     ∀ r ∈ (manipulate noAmountTable).clean.rows, r.amount = Cell.num 1 ∧ r.vat = 0.2) :=
  ⟨rfl, claim_C10 noAmountTable rfl⟩

end ClaimProofs
